import Mathlib

/-!
# Verification of the Anvil pipeline orchestrator (`run_pipeline.py`)

This file gives a shallow embedding of the pipeline-orchestration core of
`run_pipeline.py` and proves properties about it.

Modelling conventions:
* Python strings are Lean `String`s; the Python string operations used by the
  source (`split`, `strip`, `partition`, `startswith`, `in`, `isidentifier`)
  are re-implemented below by structural recursion on the underlying character
  lists so that every definition evaluates inside the kernel.  `isidentifier`
  is modelled for ASCII identifiers (the only ones the program uses).
* Python floats (costs, scores, thresholds) are modelled as rationals `ℚ`;
  none of the verified properties depends on rounding.
* Filesystem and agent effects are modelled as explicit inputs: the agent call
  is an `AgentOutcome` value, the kill-switch file and approval-marker files
  are boolean inputs, and the current git HEAD is a string input.
* A Python function that can raise is modelled with an explicit result
  constructor for every raise site (`Option`, or a dedicated exit inductive).
* Python `dict`s are association lists with in-place update (`setKey`),
  matching dict insertion-order semantics.
-/

namespace Anvil

/-! ## Python string primitives -/

/-- Split a character list at every character satisfying `p`, keeping empty
segments (the behaviour of Python `str.split(sep)` for a one-character `sep`
when `p` tests for that character). -/
def splitCharsAux (p : Char → Bool) : List Char → List Char → List (List Char)
  | [], acc => [acc.reverse]
  | c :: rest, acc =>
    if p c then acc.reverse :: splitCharsAux p rest []
    else splitCharsAux p rest (c :: acc)

/-- Python `s.split(sep)` for a single-character separator `sep`:
splits at every occurrence, keeping empty segments; `"".split(sep) = [""]`. -/
def pySplitChar (sep : Char) (s : String) : List String :=
  (splitCharsAux (fun c => c == sep) s.data []).map fun l => ⟨l⟩

/-- Fuel-driven worker for `pySplitOn`.  Scans left to right; at each position
where `sep` is a prefix, emits the accumulated segment and jumps over `sep`
(non-overlapping matches, as in Python `str.split`). -/
def pySplitOnAux (sep : List Char) : Nat → List Char → List Char → List (List Char)
  | 0, s, acc => [acc.reverse ++ s]
  | fuel + 1, s, acc =>
    match s with
    | [] => [acc.reverse]
    | c :: rest =>
      if sep.isPrefixOf (c :: rest) then
        acc.reverse :: pySplitOnAux sep fuel (List.drop sep.length (c :: rest)) []
      else
        pySplitOnAux sep fuel rest (c :: acc)

/-- Python `s.split(sep)` for a non-empty multi-character separator. -/
def pySplitOn (sep s : String) : List String :=
  (pySplitOnAux sep.data (s.data.length + 1) s.data []).map fun l => ⟨l⟩

/-- Python `s.strip()`: remove leading and trailing whitespace. -/
def pyStrip (s : String) : String :=
  ⟨(((s.data.dropWhile Char.isWhitespace).reverse.dropWhile Char.isWhitespace).reverse)⟩

/-- Python `s.strip(c)` for a one-character argument: remove ALL leading and
trailing occurrences of `c` (not just one layer). -/
def pyStripChar (c : Char) (s : String) : String :=
  ⟨(((s.data.dropWhile (· == c)).reverse.dropWhile (· == c)).reverse)⟩

/-- Python `s.split()` (no argument): split on whitespace runs, discarding
empty segments; `"".split() = []`. -/
def pyWhitespaceSplit (s : String) : List String :=
  ((splitCharsAux Char.isWhitespace s.data []).filter (· ≠ [])).map fun l => ⟨l⟩

/-- Python `s.startswith(pat)`. -/
def pyStartsWith (s pat : String) : Bool :=
  pat.data.isPrefixOf s.data

/-- Python `c in s` for a single character `c`. -/
def pyContainsChar (c : Char) (s : String) : Bool :=
  s.data.contains c

/-- Python `s.partition(sep)` for `sep = '='`, returning only the pieces the
source uses: the text before the first `'='` and the text after it (the
"after" part is empty when `'='` does not occur, as in Python). -/
def pyPartitionEqAux : List Char → List Char → (List Char × List Char)
  | [], acc => (acc.reverse, [])
  | c :: rest, acc =>
    if c == '=' then (acc.reverse, rest) else pyPartitionEqAux rest (c :: acc)

def pyPartitionEq (s : String) : String × String :=
  let p := pyPartitionEqAux s.data []
  (⟨p.1⟩, ⟨p.2⟩)

/-- Python `s.isidentifier()`, restricted to ASCII (the source's config keys
are ASCII): non-empty, first character a letter or `'_'`, remaining characters
letters, digits or `'_'`. -/
def isIdentifier (s : String) : Bool :=
  match s.data with
  | [] => false
  | c :: rest => (c.isAlpha || c == '_') && rest.all (fun d => d.isAlphanum || d == '_')

/-- Python `dict[key] = value`: in-place update preserving insertion order,
appending at the end when the key is new. -/
def setKey : List (String × String) → String → String → List (String × String)
  | [], k, v => [(k, v)]
  | (k', v') :: rest, k, v =>
    if k' = k then (k, v) :: rest else (k', v') :: setKey rest k v

/-! ## Verdict parsing (`parse_verdict`, source lines 370-375)

Python:
```
for line in reversed(result_text.split("\n")):
    if "VERDICT:" in line:
        return line.split("VERDICT:")[-1].strip().split()[0]
return "UNKNOWN"
```
`line.split("VERDICT:")[-1].strip().split()[0]` raises `IndexError` when the
text after the last `VERDICT:` is empty or whitespace-only (`[] [0]`); the
model returns `none` exactly at that raise site. -/

/-- Model of `line.split("VERDICT:")[-1].strip().split()[0]`; `none` models the
`IndexError` raised when no token follows. -/
def verdictToken (line : String) : Option String :=
  let parts := pySplitOn "VERDICT:" line
  (pyWhitespaceSplit (pyStrip (parts.getLastD ""))).head?

/-- The reversed-line scan of `parse_verdict`: Python `"VERDICT:" in line` is
modelled as `(line.split("VERDICT:")).length ≥ 2`, which is equivalent for the
non-empty separator `"VERDICT:"`. -/
def parseVerdictLines : List String → Option String
  | [] => some "UNKNOWN"
  | line :: rest =>
    if (pySplitOn "VERDICT:" line).length ≥ 2 then verdictToken line
    else parseVerdictLines rest

/-- Model of `parse_verdict(result_text)`; `none` models an uncaught `IndexError`. -/
def parse_verdict (resultText : String) : Option String :=
  parseVerdictLines (pySplitOn "\n" resultText).reverse

/-- C5: the code raises on a `VERDICT:` line with no following token;
on ordinary inputs it behaves as described. -/
theorem c5_parse_verdict_raises :
    parse_verdict "VERDICT:" = none
      ∧ parse_verdict "all done\nVERDICT:   \n" = none
      ∧ parse_verdict "no verdict here" = some "UNKNOWN"
      ∧ parse_verdict "x\nVERDICT: PASS with notes\ny" = some "PASS" := by
  refine ⟨rfl, rfl, rfl, rfl⟩

/-! ## Config loader (`load_bash_config`, source lines 70-85)

Python, per line: strip; skip blank lines and `#` comments; accept lines
containing `=` that do not start with `"for "` or `"if "`; key is the text
before the first `=` (stripped), value is the text after it, stripped of
whitespace, then of double quotes (`.strip('"')` removes ALL leading/trailing
`"`), then of single quotes; store only when the key is an identifier.
The file is modelled as its list of lines (a missing file is the empty
list, yielding the empty dict as in the source). -/

def load_bash_config (lines : List String) : List (String × String) :=
  lines.foldl
    (fun config rawLine =>
      let line := pyStrip rawLine
      if line = "" then config
      else if pyStartsWith line "#" then config
      else if pyContainsChar '=' line
              ∧ ¬ pyStartsWith line "for " ∧ ¬ pyStartsWith line "if " then
        let kv := pyPartitionEq line
        let key := pyStrip kv.1
        let value := pyStripChar '\'' (pyStripChar '"' (pyStrip kv.2))
        if isIdentifier key then setKey config key value else config
      else config)
    []

/-- The sample file from the specification:
`FOO="bar baz"`, `# comment`, `BAD LINE`, `FOO2='qux'`. -/
def sampleConfigLines : List String :=
  ["FOO=\"bar baz\"", "# comment", "BAD LINE", "FOO2='qux'"]

/-- C8 counterexample: the claim says exactly ONE surrounding quote layer is
removed, so a value wrapped in two double-quote layers should keep its inner
layer.  The code's `.strip('"')` removes ALL leading/trailing double quotes:
`FOO=""bar baz""` loads as `bar baz`, not `"bar baz"`. -/
theorem c8_quote_layers_counterexample :
    load_bash_config ["FOO=\"\"bar baz\"\""] = [("FOO", "bar baz")]
      ∧ ("bar baz" : String) ≠ "\"bar baz\"" := by
  exact ⟨rfl, by decide⟩

/-- C8 amended: the stored value is the text after the first `=`, stripped of
whitespace, then of ALL leading/trailing double quotes, then of ALL
leading/trailing single quotes.  The spec's sample still loads as
`{FOO: bar baz, FOO2: qux}`; doubled same-type layers are all removed, while
single quotes around double quotes keep the inner double quotes. -/
theorem c8_config_loader_amended :
    load_bash_config sampleConfigLines = [("FOO", "bar baz"), ("FOO2", "qux")]
      ∧ load_bash_config ["FOO=''qux''"] = [("FOO", "qux")]
      ∧ load_bash_config ["FOO='\"bar baz\"'"] = [("FOO", "\"bar baz\"")] := by
  exact ⟨rfl, rfl, rfl⟩

/-! ## Score-to-verdict mapping (`score_to_verdict`, source lines 389-400)

The thresholds are config integers (defaults 90/70/50) divided by 100;
the score and thresholds are modelled as rationals. -/

def score_to_verdict (thresholdAutoPass thresholdPass thresholdIterate : Int)
    (score : ℚ) : String :=
  let tAuto : ℚ := (thresholdAutoPass : ℚ) / 100
  let tPass : ℚ := (thresholdPass : ℚ) / 100
  let tIterate : ℚ := (thresholdIterate : ℚ) / 100
  if score ≥ tAuto then "AUTO_PASS"
  else if score ≥ tPass then "PASS_WITH_NOTES"
  else if score ≥ tIterate then "ITERATE"
  else "BLOCK"

/-- Strictness rank used by the claim:
`BLOCK > ITERATE > PASS_WITH_NOTES > AUTO_PASS`. -/
def verdictStrictness (v : String) : Nat :=
  if v = "BLOCK" then 3
  else if v = "ITERATE" then 2
  else if v = "PASS_WITH_NOTES" then 1
  else 0

/-- C9: `score_to_verdict` is monotone for every choice of configured
thresholds: a higher score never yields a strictly stricter verdict. -/
theorem c9_score_to_verdict_monotone (tA tP tI : Int) (s₁ s₂ : ℚ) (h : s₁ ≤ s₂) :
    verdictStrictness (score_to_verdict tA tP tI s₂)
      ≤ verdictStrictness (score_to_verdict tA tP tI s₁) := by
  simp only [score_to_verdict]
  split_ifs <;> first | decide | linarith

/-- Witness for C9 at the default thresholds 90/70/50 and scores 0.6 ≤ 0.8. -/
theorem c9_score_to_verdict_monotone_witness :
    verdictStrictness (score_to_verdict 90 70 50 (8/10))
      ≤ verdictStrictness (score_to_verdict 90 70 50 (6/10)) :=
  c9_score_to_verdict_monotone 90 70 50 (6/10) (8/10) (by norm_num)

/-! ## Routing (`route_from_gate`, source lines 607-640)

The routing dict, in source order, keyed by `f"{gate}:{verdict}"`; the
`verify` gate is special-cased after the table, consulting the retry budget
`MAX_VERIFY_RETRIES` (a module global loaded from config, passed here as the
explicit argument `maxVerifyRetries`). -/

def routesTable : List (String × String) :=
  [ ("interrogation-review:AUTO_PASS", "generate-docs"),
    ("interrogation-review:PASS_WITH_NOTES", "generate-docs"),
    ("interrogation-review:PASS", "generate-docs"),
    ("interrogation-review:ITERATE", "interrogate"),
    ("interrogation-review:NEEDS_HUMAN", "BLOCKED"),
    ("interrogation-review:BLOCK", "BLOCKED"),
    ("doc-review:AUTO_PASS", "write-specs"),
    ("doc-review:PASS_WITH_NOTES", "write-specs"),
    ("doc-review:PASS", "write-specs"),
    ("doc-review:ITERATE", "generate-docs"),
    ("holdout-validate:AUTO_PASS", "security-audit"),
    ("holdout-validate:PASS_WITH_NOTES", "security-audit"),
    ("holdout-validate:PASS", "security-audit"),
    ("holdout-validate:FAIL", "implement"),
    ("security-audit:PASS", "ship"),
    ("security-audit:AUTO_PASS", "ship"),
    ("security-audit:FAIL", "implement") ]

/-- First-match association-list lookup (dict lookup; the keys above are
pairwise distinct). -/
def lookupRoute : List (String × String) → String → Option String
  | [], _ => none
  | (k, v) :: rest, key => if k = key then some v else lookupRoute rest key

def route_from_gate (maxVerifyRetries : Nat) (gate verdict : String)
    (retries : Nat) : String :=
  let key := gate ++ ":" ++ verdict
  match lookupRoute routesTable key with
  | some target => target
  | none =>
    if gate = "verify" then
      if verdict = "PASS" ∨ verdict = "AUTO_PASS" ∨ verdict = "PASS_WITH_NOTES" then
        "next-step-or-holdout"
      else if retries ≥ maxVerifyRetries then "BLOCKED"
      else "implement"
    else "BLOCKED"

/-- The verdict vocabulary enumerated by the specification's data model. -/
def verdictUniverse : List String :=
  ["AUTO_PASS", "PASS", "PASS_WITH_NOTES", "ITERATE", "FAIL", "BLOCK",
   "NEEDS_HUMAN", "UNKNOWN"]

/-- C3 counterexample: the claim says `security-audit` advances to `ship` on
every pass verdict including `PASS_WITH_NOTES`, but
`security-audit:PASS_WITH_NOTES` is not in the table, so the router returns
`BLOCKED`, not `ship`. -/
theorem c3_security_audit_pass_with_notes_counterexample :
    route_from_gate 3 "security-audit" "PASS_WITH_NOTES" 0 = "BLOCKED"
      ∧ ("BLOCKED" : String) ≠ "ship" := by
  exact ⟨rfl, by decide⟩

/-- C3 amended: over the enumerated verdict vocabulary and for every retry
count, `holdout-validate` advances to `security-audit` on all three pass
verdicts and loops to `implement` on `FAIL`; `security-audit` advances to
`ship` on `AUTO_PASS` and `PASS` only (its `PASS_WITH_NOTES` key is absent,
yielding `BLOCKED`) and loops to `implement` on `FAIL`; every other verdict
yields `BLOCKED` for both gates. -/
theorem c3_gate_routing_amended (m r : Nat) (v : String) (hv : v ∈ verdictUniverse) :
    route_from_gate m "holdout-validate" v r =
      (if v = "AUTO_PASS" ∨ v = "PASS_WITH_NOTES" ∨ v = "PASS" then "security-audit"
       else if v = "FAIL" then "implement" else "BLOCKED")
      ∧ route_from_gate m "security-audit" v r =
        (if v = "AUTO_PASS" ∨ v = "PASS" then "ship"
         else if v = "FAIL" then "implement" else "BLOCKED") := by
  fin_cases hv <;> exact ⟨rfl, rfl⟩

/-- Witness for C3 amended at `v = PASS_WITH_NOTES`, `m = 3`, `r = 0`. -/
theorem c3_gate_routing_amended_witness :
    route_from_gate 3 "holdout-validate" "PASS_WITH_NOTES" 0 = "security-audit"
      ∧ route_from_gate 3 "security-audit" "PASS_WITH_NOTES" 0 = "BLOCKED" := by
  have h := c3_gate_routing_amended 3 0 "PASS_WITH_NOTES" (by decide)
  refine ⟨h.1.trans (by decide), h.2.trans (by decide)⟩

/-- C10: for every gate other than `verify`, the routing result is
independent of the retry count: the table lookup ignores `retries`, and the
retry budget is consulted only in the `verify` special case. -/
theorem c10_retries_independent (m : Nat) (g v : String) (r₁ r₂ : Nat)
    (h : g ≠ "verify") :
    route_from_gate m g v r₁ = route_from_gate m g v r₂ := by
  unfold route_from_gate
  cases lookupRoute routesTable (g ++ ":" ++ v) <;> simp [h]

/-- Witness for C10 at `doc-review:ITERATE` with retry counts 0 and 7. -/
theorem c10_retries_independent_witness :
    route_from_gate 3 "doc-review" "ITERATE" 0 = route_from_gate 3 "doc-review" "ITERATE" 7 :=
  c10_retries_independent 3 "doc-review" "ITERATE" 0 7 (by decide)

/-! ## Dual-pass review reconciliation
(`run_review_with_bias_check`, source lines 589-602)

Python:
```
all_verdicts = [v for v in (v1, v2, v_ext) if v and v != "UNKNOWN"]
if len(set(all_verdicts)) == 1:
    return all_verdicts[0]
...
for strict in ("FAIL", "ITERATE", "NEEDS_HUMAN"):
    if strict in all_verdicts:
        return strict
return v1
```
`len(set(xs)) == 1` is the number of distinct elements, i.e.
`xs.dedup.length = 1`. -/

/-- The filtered list of present verdicts (drops empty and `UNKNOWN`). -/
def presentVerdicts (v₁ v₂ vext : String) : List String :=
  [v₁, v₂, vext].filter fun v => v ≠ "" ∧ v ≠ "UNKNOWN"

/-- The reconciliation step of `run_review_with_bias_check`. -/
def reconcileVerdicts (v₁ v₂ vext : String) : String :=
  let allVerdicts := presentVerdicts v₁ v₂ vext
  if allVerdicts.dedup.length = 1 then allVerdicts.headD ""
  else if "FAIL" ∈ allVerdicts then "FAIL"
  else if "ITERATE" ∈ allVerdicts then "ITERATE"
  else if "NEEDS_HUMAN" ∈ allVerdicts then "NEEDS_HUMAN"
  else v₁

/-- Modelled from the claim's words: on disagreement, the strictest PRESENT
verdict under the full precedence
`FAIL > ITERATE > NEEDS_HUMAN > PASS_WITH_NOTES > PASS > AUTO_PASS`. -/
def reconcileClaimSpec (v₁ v₂ vext : String) : String :=
  let vs := presentVerdicts v₁ v₂ vext
  if vs ≠ [] ∧ ∀ a ∈ vs, ∀ b ∈ vs, a = b then vs.headD ""
  else if "FAIL" ∈ vs then "FAIL"
  else if "ITERATE" ∈ vs then "ITERATE"
  else if "NEEDS_HUMAN" ∈ vs then "NEEDS_HUMAN"
  else if "PASS_WITH_NOTES" ∈ vs then "PASS_WITH_NOTES"
  else if "PASS" ∈ vs then "PASS"
  else if "AUTO_PASS" ∈ vs then "AUTO_PASS"
  else v₁

/-- Modelled from the amended claim: on disagreement only
`FAIL`, `ITERATE`, `NEEDS_HUMAN` are considered, in that order; when none of
them is present, pass 1's verdict is returned unchanged. -/
def reconcileAmendedSpec (v₁ v₂ vext : String) : String :=
  let vs := presentVerdicts v₁ v₂ vext
  if vs ≠ [] ∧ ∀ a ∈ vs, ∀ b ∈ vs, a = b then vs.headD ""
  else if "FAIL" ∈ vs then "FAIL"
  else if "ITERATE" ∈ vs then "ITERATE"
  else if "NEEDS_HUMAN" ∈ vs then "NEEDS_HUMAN"
  else v₁

/-- A list has exactly one distinct element iff it is non-empty and all its
elements agree. -/
theorem dedup_length_eq_one_iff (l : List String) :
    l.dedup.length = 1 ↔ (l ≠ [] ∧ ∀ a ∈ l, ∀ b ∈ l, a = b) := by
  constructor
  · intro h
    obtain ⟨a, ha⟩ := List.length_eq_one.mp h
    have hmem : ∀ b ∈ l, b = a := by
      intro b hb
      have hbd : b ∈ l.dedup := List.mem_dedup.mpr hb
      rw [ha] at hbd
      simpa using hbd
    refine ⟨?_, ?_⟩
    · intro hnil
      subst hnil
      simp [List.dedup_nil] at ha
    · intro x hx y hy
      rw [hmem x hx, hmem y hy]
  · rintro ⟨hne, hall⟩
    obtain ⟨c, t, rfl⟩ := List.exists_cons_of_ne_nil hne
    have key : ∀ t' : List String, (∀ b ∈ t', b = c) → (c :: t').dedup = [c] := by
      intro t'
      induction t' with
      | nil => intro _; simp
      | cons d t'' ih =>
        intro hall2
        have hd : d = c := hall2 d (by simp)
        subst hd
        have hmem : d ∈ d :: t'' := by simp
        rw [List.dedup_cons_of_mem hmem]
        exact ih fun b hb => hall2 b (by simp [hb])
    rw [key t (fun b hb => hall b (by simp [hb]) c (by simp))]
    rfl

/-- C4 counterexample: with pass-1 `AUTO_PASS`, pass-2 `PASS_WITH_NOTES` and
no external verdict, the claimed "strictest present verdict" is
`PASS_WITH_NOTES`, but the code's fallback returns pass 1's verdict
`AUTO_PASS`. -/
theorem c4_reconcile_counterexample :
    reconcileVerdicts "AUTO_PASS" "PASS_WITH_NOTES" "" = "AUTO_PASS"
      ∧ reconcileClaimSpec "AUTO_PASS" "PASS_WITH_NOTES" "" = "PASS_WITH_NOTES"
      ∧ ("AUTO_PASS" : String) ≠ "PASS_WITH_NOTES" := by
  refine ⟨by decide, by decide, by decide⟩

/-- C4 amended: if all present verdicts agree the common verdict is returned;
otherwise the strictest among `FAIL > ITERATE > NEEDS_HUMAN` that is present
is returned, and when none of those three is present the pass-1 verdict is
returned (the softer precedence levels are never consulted). -/
theorem c4_reconcile_amended (v₁ v₂ vext : String) :
    reconcileVerdicts v₁ v₂ vext = reconcileAmendedSpec v₁ v₂ vext := by
  unfold reconcileVerdicts reconcileAmendedSpec
  simp only [dedup_length_eq_one_iff]

/-! ## Data model (`PhaseResult`, `PipelineState`, source lines 170-250)

Costs (Python floats) are rationals.  The `satisfaction_score` field is not
modelled: no verified claim depends on `parse_satisfaction`.  `log_dir` and
`kill_switch` paths are externalised: file existence enters as boolean
inputs. -/

structure PhaseResult where
  name : String
  cost_usd : ℚ
  turns : Nat
  verdict : String
  session_id : String
  error : Option String

structure PipelineState where
  ticket : String
  status : String
  current_phase : String
  total_cost : ℚ
  max_cost : ℚ
  resume_phase : String
  phases : List PhaseResult

/-! ## Phase runner (`run_phase`, source lines 447-521)

The agent call (`ClaudeAgent.run` under `asyncio.wait_for`) is externalised
as an `AgentOutcome`: either a result record, a timeout, or an exception.
`run_phase` in the source:
1. raises if the kill-switch file exists;
2. raises if `total_cost > max_cost`;
3. sets `current_phase` and checkpoints;
4. runs the agent; on success parses the verdict (`parse_verdict` may itself
   raise `IndexError`, which the surrounding `except Exception` turns into an
   error result); on timeout/exception builds an error-only result;
5. appends the result, adds its cost, checkpoints and writes the cost ledger
   (these persistence writes are modelled by the state fields themselves);
6. re-raises (`RuntimeError`) when the result carries an error.
Every raise site is a distinct `PhaseExit` constructor; for `.raisedKillSwitch`
and `.raisedCostCeiling` the state is returned unchanged, matching the source
where the checks precede every mutation. -/

inductive AgentOutcome where
  | ok (text : String) (cost : ℚ) (turns : Nat) (sessionId : String)
  | timeout
  | exn (msg : String)

inductive PhaseExit where
  | completed (pr : PhaseResult)
  | raisedPhaseError (pr : PhaseResult)
  | raisedKillSwitch
  | raisedCostCeiling

/-- The `PhaseResult` built inside `run_phase`'s try/except. -/
def mkPhaseResult (name : String) (outcome : AgentOutcome) : PhaseResult :=
  match outcome with
  | .ok text cost turns sessionId =>
    match parse_verdict text with
    | some v =>
      { name := name, cost_usd := cost, turns := turns, verdict := v,
        session_id := sessionId, error := none }
    | none =>
      -- `parse_verdict` raised `IndexError`; caught by `except Exception`
      { name := name, cost_usd := 0, turns := 0, verdict := "UNKNOWN",
        session_id := "", error := some "IndexError: list index out of range" }
  | .timeout =>
    { name := name, cost_usd := 0, turns := 0, verdict := "UNKNOWN",
      session_id := "", error := some "Timeout" }
  | .exn msg =>
    { name := name, cost_usd := 0, turns := 0, verdict := "UNKNOWN",
      session_id := "", error := some msg }

/-- The post-check body of `run_phase`: build the result, append it, add its
cost (this is where `current_phase` is set and checkpoints/ledger written). -/
def run_phase_core (st : PipelineState) (name : String) (outcome : AgentOutcome) :
    PipelineState × PhaseExit :=
  let pr := mkPhaseResult name outcome
  let st' := { st with
    current_phase := name,
    total_cost := st.total_cost + pr.cost_usd,
    phases := st.phases ++ [pr] }
  (st', if pr.error.isSome then .raisedPhaseError pr else .completed pr)

def run_phase (killSwitch : Bool) (st : PipelineState) (name : String)
    (outcome : AgentOutcome) : PipelineState × PhaseExit :=
  if killSwitch then (st, .raisedKillSwitch)
  else if st.total_cost > st.max_cost then (st, .raisedCostCeiling)
  else run_phase_core st name outcome

/-- Meaning "the agent was invoked": the two exits that pass the entry checks. -/
def agentInvoked : PhaseExit → Prop
  | .completed _ => True
  | .raisedPhaseError _ => True
  | .raisedKillSwitch => False
  | .raisedCostCeiling => False

/-- A state below the ceiling, about to run a phase that costs 10. -/
def c6State : PipelineState :=
  { ticket := "T-1", status := "running", current_phase := "", total_cost := 49,
    max_cost := 50, resume_phase := "", phases := [] }

/-- C6 counterexample: a phase's cost is added AFTER the phase runs, so the
run completes normally (no raise) and leaves a persisted state whose
`total_cost` (59) exceeds `max_cost` (50) — the claim that no such state
persists is false; the violation is only caught at the NEXT phase's entry. -/
theorem c6_cost_ceiling_counterexample :
    (run_phase false c6State "implement-step-1-attempt-1"
        (.ok "VERDICT: PASS" 10 5 "s")).1.total_cost
      > (run_phase false c6State "implement-step-1-attempt-1"
        (.ok "VERDICT: PASS" 10 5 "s")).1.max_cost
      ∧ (run_phase false c6State "implement-step-1-attempt-1"
          (.ok "VERDICT: PASS" 10 5 "s")).2
        = .completed (mkPhaseResult "implement-step-1-attempt-1"
            (.ok "VERDICT: PASS" 10 5 "s")) := by
  have hc : ¬ c6State.total_cost > c6State.max_cost := by
    simp only [c6State]
    norm_num
  have hpr : mkPhaseResult "implement-step-1-attempt-1" (.ok "VERDICT: PASS" 10 5 "s")
      = { name := "implement-step-1-attempt-1", cost_usd := 10, turns := 5,
          verdict := "PASS", session_id := "s", error := none } := rfl
  constructor
  · simp only [run_phase, if_neg hc, Bool.false_eq_true, if_false, run_phase_core, hpr,
      c6State]
    norm_num
  · simp only [run_phase, if_neg hc, Bool.false_eq_true, if_false, run_phase_core, hpr]
    rfl

/-- C6 amended: the ceiling is enforced at phase ENTRY: the agent is invoked
only when `total_cost ≤ max_cost`, and when the ceiling is already exceeded
(and the kill switch absent) `run_phase` raises the cost-ceiling error with
the state unchanged.  The cost of a completed phase is added afterwards, so
the persisted total may exceed the ceiling until the next phase entry. -/
theorem c6_cost_ceiling_amended (killSwitch : Bool) (st : PipelineState)
    (name : String) (outcome : AgentOutcome) :
    (agentInvoked (run_phase killSwitch st name outcome).2 →
        st.total_cost ≤ st.max_cost)
      ∧ (killSwitch = false → st.total_cost > st.max_cost →
          run_phase killSwitch st name outcome = (st, .raisedCostCeiling)) := by
  constructor
  · intro hinv
    by_contra hgt
    push_neg at hgt
    cases killSwitch with
    | true => simp [run_phase, agentInvoked] at hinv
    | false => simp [run_phase, hgt, agentInvoked] at hinv
  · intro hks hgt
    subst hks
    simp [run_phase, hgt]

/-- A state whose accumulated cost already exceeds the ceiling. -/
def c6OverState : PipelineState :=
  { ticket := "T-1", status := "running", current_phase := "", total_cost := 60,
    max_cost := 50, resume_phase := "", phases := [] }

/-- Witness for C6 amended: a state already over the ceiling raises
immediately, leaving the state unchanged. -/
theorem c6_cost_ceiling_amended_witness :
    run_phase false c6OverState "phase0" .timeout = (c6OverState, .raisedCostCeiling) :=
  (c6_cost_ceiling_amended false c6OverState "phase0" .timeout).2 rfl
    (by simp only [c6OverState]; norm_num)

/-! ## Tier filter and phase scheduling
(`tier_allows_phase` / `should_run_phase`, source lines 254-333)

`PHASE_ORDER` is the module default (overridable from config; the scheduling
model takes the effective order as an input).  `tier_allows_phase` is modelled
on the already-resolved tier (`resolved_tier` after its first-call resolution;
an unknown tier has an empty skip set, as with `dict.get(tier, set())`).

`should_run_phase` reads module config (`HUMAN_GATES`, `DOC_TEMPLATES_MODE`)
and the filesystem (the `<log_dir>/<phase>.human-approved` marker); these
enter through `GateEnv`.  The human-gate branch sets the status to
`needs_human_gate`, saves a checkpoint and calls `sys.exit(2)`: this is the
`.exitWith "needs_human_gate" 2` decision. -/

def PHASE_ORDER : List String :=
  ["phase0", "interrogate", "interrogation-review", "generate-docs",
   "doc-review", "write-specs", "holdout-generate", "implement",
   "holdout-validate", "security-audit", "ship"]

def tier_allows_phase (resolvedTier phase : String) : Bool :=
  let skips : List String :=
    if resolvedTier = "nano" then
      ["interrogation-review", "generate-docs", "doc-review", "write-specs",
       "holdout-generate", "holdout-validate", "security-audit"]
    else if resolvedTier = "quick" then
      ["write-specs", "holdout-generate", "holdout-validate", "security-audit"]
    else if resolvedTier = "standard" then
      ["holdout-generate", "holdout-validate"]
    else []
  ¬ skips.contains phase

/-- Parsing of `HUMAN_GATES`:
`[g.strip() for g in _config.get("HUMAN_GATES", "").split(",") if g.strip()]`. -/
def parseHumanGates (raw : String) : List String :=
  ((pySplitChar ',' raw).map pyStrip).filter (· ≠ "")

/-- The source loop
```
reached_resume = False
for p in PHASE_ORDER:
    if p == self.resume_phase:
        reached_resume = True
    if p == phase:
        if not reached_resume:
            return False
        break
```
as a recursion carrying the `reached_resume` flag; `true` means the loop
returned `False` (skip). -/
def skipBeforeResume (order : List String) (resumePhase phase : String)
    (reached : Bool) : Bool :=
  match order with
  | [] => false
  | p :: rest =>
    let reached' := reached || (p == resumePhase)
    if p == phase then ¬ reached'
    else skipBeforeResume rest resumePhase phase reached'

/-- Module configuration and filesystem facts consulted by
`should_run_phase`. -/
structure GateEnv where
  phaseOrder : List String
  humanGatesRaw : String
  docTemplatesMode : String
  approvalExists : String → Bool
  resolvedTier : String

inductive RunDecision where
  | proceed
  | skip
  | exitWith (status : String) (code : Nat)
deriving DecidableEq

def should_run_phase (env : GateEnv) (st : PipelineState) (phase : String) :
    RunDecision :=
  if st.resume_phase = "" then
    if ¬ tier_allows_phase env.resolvedTier phase then .skip else .proceed
  else
    if skipBeforeResume env.phaseOrder st.resume_phase phase false then .skip
    else if (st.phases.map (·.name)).contains phase then .skip
    else if ¬ tier_allows_phase env.resolvedTier phase then .skip
    else if env.docTemplatesMode = "none"
            ∧ (phase = "generate-docs" ∨ phase = "doc-review") then .skip
    else if phase ∈ parseHumanGates env.humanGatesRaw
            ∧ ¬ env.approvalExists phase then
      .exitWith "needs_human_gate" 2
    else .proceed

/-- The environment of the human-gate scenario: `HUMAN_GATES=doc-review`,
no approval marker on disk, full tier, default phase order. -/
def gateEnv : GateEnv :=
  { phaseOrder := PHASE_ORDER, humanGatesRaw := "doc-review",
    docTemplatesMode := "auto", approvalExists := fun _ => false,
    resolvedTier := "full" }

/-- A fresh-run state (no resume anchor) at the gated phase. -/
def freshState : PipelineState :=
  { ticket := "T-1", status := "running", current_phase := "", total_cost := 0,
    max_cost := 50, resume_phase := "", phases := [] }

/-- The same run resumed with anchor `doc-review`. -/
def resumedState : PipelineState :=
  { freshState with resume_phase := "doc-review" }

/-- C1: on a FRESH run (`resume_phase` empty) `should_run_phase` returns
`True` before ever reaching the human-gate check, so the gated phase's agent
runs without approval; only on a RESUMED run does the absent marker produce
status `needs_human_gate` and exit code 2. -/
theorem c1_human_gate_eval :
    should_run_phase gateEnv freshState "doc-review" = .proceed
      ∧ should_run_phase gateEnv resumedState "doc-review"
        = .exitWith "needs_human_gate" 2 := by
  refine ⟨rfl, rfl⟩

/-! ## Checkpointing and resume
(`save_checkpoint`, source lines 335-348; `main` resume, lines 846-856)

`save_checkpoint` serialises status, current phase, ticket, total cost and a
per-phase summary.  On `--resume`, `main` restores ONLY `resume_phase` (from
the checkpoint's `current_phase`), `total_cost` and the log directory into a
fresh state: the checkpoint's `phases` array is NOT restored into
`state.phases`. -/

structure CheckpointPhase where
  name : String
  cost : ℚ
  turns : Nat
  verdict : String

structure Checkpoint where
  status : String
  current_phase : String
  ticket : String
  total_cost : ℚ
  phases : List CheckpointPhase

def save_checkpoint (st : PipelineState) : Checkpoint :=
  { status := st.status, current_phase := st.current_phase, ticket := st.ticket,
    total_cost := st.total_cost,
    phases := st.phases.map fun p =>
      { name := p.name, cost := p.cost_usd, turns := p.turns, verdict := p.verdict } }

/-- The resume branch of `main`: restore the anchor and the cost accumulator
into the fresh state; `state.phases` is left empty. -/
def applyResume (st : PipelineState) (cp : Checkpoint) : PipelineState :=
  { st with resume_phase := cp.current_phase, total_cost := cp.total_cost }

/-- First-occurrence index; `order.length` when absent. -/
def firstIdx : List String → String → Nat
  | [], _ => 0
  | p :: rest, a => if p = a then 0 else firstIdx rest a + 1

/-- Characterisation: `skipBeforeResume` skips exactly the phases whose first occurrence in the
order precedes the resume anchor's first occurrence (when the flag starts
`false`). -/
theorem skipBeforeResume_eq (order : List String) (resumePhase phase : String)
    (reached : Bool) :
    skipBeforeResume order resumePhase phase reached
      = (¬ reached && decide (firstIdx order phase < firstIdx order resumePhase)) := by
  induction order generalizing reached with
  | nil => simp [skipBeforeResume, firstIdx]
  | cons p rest ih =>
    simp only [skipBeforeResume, firstIdx]
    by_cases hp : p = phase
    · subst hp
      by_cases hr : p = resumePhase
      · subst hr
        simp
      · simp [hr, Ne.symm hr]
    · by_cases hr : p = resumePhase
      · subst hr
        simp [hp, Ne.symm hp, ih]
      · simp [hp, hr, Ne.symm hp, Ne.symm hr, ih]

/-- The default environment of the resume scenarios: no human gates, default
order, full tier. -/
def resumeEnv : GateEnv :=
  { phaseOrder := PHASE_ORDER, humanGatesRaw := "", docTemplatesMode := "auto",
    approvalExists := fun _ => false, resolvedTier := "full" }

/-- C2 counterexample: run `phase0` to completion from a fresh state, save the
checkpoint (whose `current_phase` is then `phase0` and whose phases array
contains `phase0`), resume from it — and `should_run_phase` returns `proceed`
for `phase0`, re-running a phase recorded as completed in the checkpoint:
the in-memory completed list is not restored on resume, and the anchor itself
is not skipped. -/
theorem c2_resume_counterexample :
    ((save_checkpoint (run_phase false freshState "phase0"
          (.ok "done\nVERDICT: PASS" 1 3 "sess")).1).phases.map (·.name)).contains
        "phase0" = true
      ∧ should_run_phase resumeEnv
          (applyResume freshState
            (save_checkpoint (run_phase false freshState "phase0"
              (.ok "done\nVERDICT: PASS" 1 3 "sess")).1))
          "phase0" = .proceed := by
  have hc : ¬ freshState.total_cost > freshState.max_cost := by
    simp only [freshState]
    norm_num
  have hpr : mkPhaseResult "phase0" (.ok "done\nVERDICT: PASS" 1 3 "sess")
      = { name := "phase0", cost_usd := 1, turns := 3, verdict := "PASS",
          session_id := "sess", error := none } := rfl
  have hrun : (run_phase false freshState "phase0"
      (.ok "done\nVERDICT: PASS" 1 3 "sess")).1
      = { freshState with
            current_phase := "phase0",
            total_cost := freshState.total_cost + 1,
            phases := freshState.phases
              ++ [{ name := "phase0", cost_usd := 1, turns := 3,
                    verdict := "PASS", session_id := "sess", error := none }] } := by
    simp only [run_phase, if_neg hc, Bool.false_eq_true, if_false, run_phase_core, hpr]
  constructor
  · rw [hrun]
    rfl
  · rw [hrun]
    rfl

/-- C2 amended: after a resume (`resume_phase` non-empty), `should_run_phase`
skips every phase whose first occurrence in the effective phase order strictly
precedes the resume anchor's, and every phase present in the state's IN-MEMORY
completed list.  (The checkpoint's completed-phase array itself is not
restored on resume, so a recorded phase at or after the anchor — in
particular the anchor itself, which is the last completed phase whenever the
previous run stopped between phases — can run again.) -/
theorem c2_resume_skip_amended (env : GateEnv) (st : PipelineState) (phase : String)
    (hres : st.resume_phase ≠ "")
    (h : firstIdx env.phaseOrder phase < firstIdx env.phaseOrder st.resume_phase
          ∨ (st.phases.map (·.name)).contains phase = true) :
    should_run_phase env st phase = .skip := by
  unfold should_run_phase
  rw [if_neg hres]
  rcases h with h | h
  · rw [if_pos]
    rw [skipBeforeResume_eq]
    simp [h]
  · by_cases hskip : skipBeforeResume env.phaseOrder st.resume_phase phase false = true
    · rw [if_pos hskip]
    · rw [if_neg hskip, if_pos h]

/-- Witness for C2 amended: with anchor `implement`, phase `phase0` (which
precedes it in the default order) is skipped. -/
theorem c2_resume_skip_amended_witness :
    should_run_phase resumeEnv { freshState with resume_phase := "implement" }
      "phase0" = .skip :=
  c2_resume_skip_amended resumeEnv _ "phase0" (by decide) (Or.inl (by decide))

/-! ## Progress tracking (`ProgressTracker.check`, source lines 189-207)

`get_git_head()` is external state and enters as the `currentHead` argument.
Note the early `return False` does NOT update `last_commit`. -/

structure ProgressTracker where
  last_commit : String
  no_progress_count : Nat
  max_no_progress : Nat

def ProgressTracker.check (tr : ProgressTracker) (phaseName currentHead : String) :
    ProgressTracker × Bool :=
  if pyStartsWith phaseName "implement" || pyStartsWith phaseName "security-fix" then
    if currentHead = tr.last_commit ∧ tr.last_commit ≠ "" then
      let tr' := { tr with no_progress_count := tr.no_progress_count + 1 }
      if tr'.no_progress_count ≥ tr'.max_no_progress then (tr', false)
      else ({ tr' with last_commit := currentHead }, true)
    else ({ tr with no_progress_count := 0, last_commit := currentHead }, true)
  else ({ tr with last_commit := currentHead }, true)

/-! ## Implementation loop (`implement_and_verify`, source lines 676-803)

Per attempt `1..MAX_VERIFY_RETRIES` the source:
1. checks the kill switch and the cost ceiling (a raise here propagates);
2. builds the retry error context and the BDD-mode prompt — prompt payloads
   only; they do not affect control flow or state and are not modelled
   (stagnation detection feeds only this text);
3. runs `implement-<id>-attempt-<n>` via `run_phase` — an agent error
   propagates out of the loop AFTER the phase was appended;
4. calls `progress.check`; on stall sets status `stalled_no_progress` and
   raises;
5. runs `verify-<id>-attempt-<n>` via `run_phase` inside
   `try/except RuntimeError`, so EVERY raise from the verify `run_phase`
   (agent error, but also kill switch and cost ceiling, which append no
   phase) is converted into a local FAIL verdict;
6. returns `True` on a pass verdict; on the final attempt sets status
   `blocked`, writes the blocker marker, returns `False`; otherwise retries.

Per-attempt external observations (`AttemptEnv`): the kill-switch file at the
three check sites, the git HEAD, and the two agent outcomes. -/

structure AttemptEnv where
  killAtLoopTop : Bool
  killAtImplement : Bool
  implOutcome : AgentOutcome
  gitHead : String
  killAtVerify : Bool
  verifyOutcome : AgentOutcome

inductive LoopExit where
  | retTrue
  | retFalse
  | raisedKill
  | raisedCost
  | raisedStall
  | raisedImplError
deriving DecidableEq

/-- Python `f"implement-{step.id}-attempt-"`, the common name stem counted by
the claim. -/
def implPre (id : String) : String := "implement-" ++ id ++ "-attempt-"

/-- Python `f"verify-{step.id}-attempt-"`. -/
def verifyPre (id : String) : String := "verify-" ++ id ++ "-attempt-"

def implAttemptStr (id : String) (attempt : Nat) : String :=
  implPre id ++ toString attempt

def verifyAttemptStr (id : String) (attempt : Nat) : String :=
  verifyPre id ++ toString attempt

/-- One iteration plus the rest of the loop; `fuel` counts the remaining
attempts (`MAX_VERIFY_RETRIES - attempt + 1`), `attempt` is the 1-based
attempt number.  `fuel = 0` is Python's `for` loop running out of range and
falling through to the trailing `return False`. -/
def implLoopGo (maxRetries : Nat) (id : String) (env : Nat → AttemptEnv) :
    Nat → Nat → PipelineState → ProgressTracker →
      PipelineState × ProgressTracker × LoopExit
  | 0, _, st, tr => (st, tr, .retFalse)
  | fuel + 1, attempt, st, tr =>
    let e := env attempt
    if e.killAtLoopTop then (st, tr, .raisedKill)
    else if st.total_cost > st.max_cost then (st, tr, .raisedCost)
    else
      match run_phase e.killAtImplement st (implAttemptStr id attempt) e.implOutcome with
      | (st₁, .raisedKillSwitch) => (st₁, tr, .raisedKill)
      | (st₁, .raisedCostCeiling) => (st₁, tr, .raisedCost)
      | (st₁, .raisedPhaseError _) => (st₁, tr, .raisedImplError)
      | (st₁, .completed _) =>
        let pc := tr.check (implAttemptStr id attempt) (e.gitHead)
        if pc.2 = false then
          ({ st₁ with status := "stalled_no_progress" }, pc.1, .raisedStall)
        else
          let vres := run_phase e.killAtVerify st₁ (verifyAttemptStr id attempt)
            e.verifyOutcome
          let verdict :=
            match vres.2 with
            | .completed pr => pr.verdict
            | .raisedPhaseError _ => "FAIL"
            | .raisedKillSwitch => "FAIL"
            | .raisedCostCeiling => "FAIL"
          if verdict = "PASS" ∨ verdict = "AUTO_PASS" ∨ verdict = "PASS_WITH_NOTES" then
            (vres.1, pc.1, .retTrue)
          else if attempt = maxRetries then
            ({ vres.1 with status := "blocked" }, pc.1, .retFalse)
          else
            implLoopGo maxRetries id env fuel (attempt + 1) vres.1 pc.1

def implement_and_verify (maxRetries : Nat) (id : String) (env : Nat → AttemptEnv)
    (st : PipelineState) (tr : ProgressTracker) :
    PipelineState × ProgressTracker × LoopExit :=
  implLoopGo maxRetries id env maxRetries 1 st tr

/-- Number of phases in the list whose name starts with `pre`
(the claim's `implement-<id>-attempt-*` / `verify-<id>-attempt-*` counts). -/
def countMatching (pre : String) (phases : List PhaseResult) : Nat :=
  (phases.filter fun p => pyStartsWith p.name pre).length

/-! ### Helper lemmas about phase-name prefixes and counts -/

theorem isPrefixOf_append_self (l t : List Char) : l.isPrefixOf (l ++ t) = true := by
  induction l with
  | nil => cases t <;> rfl
  | cons c cs ih => simp [List.isPrefixOf, ih]

theorem isPrefixOf_false_of_head_ne (a b : Char) (l₁ l₂ : List Char)
    (h : (a == b) = false) : (a :: l₁).isPrefixOf (b :: l₂) = false := by
  simp [List.isPrefixOf, h]

theorem startsWith_implPre (id : String) (r : String) :
    pyStartsWith (implPre id ++ r) (implPre id) = true := by
  unfold pyStartsWith
  rw [String.data_append]
  exact isPrefixOf_append_self _ _

theorem startsWith_verifyPre (id : String) (r : String) :
    pyStartsWith (verifyPre id ++ r) (verifyPre id) = true := by
  unfold pyStartsWith
  rw [String.data_append]
  exact isPrefixOf_append_self _ _

theorem not_startsWith_implPre_of_verify (id r : String) :
    pyStartsWith (verifyPre id ++ r) (implPre id) = false := by
  unfold pyStartsWith verifyPre implPre
  simp only [String.data_append, List.cons_append]
  exact isPrefixOf_false_of_head_ne _ _ _ _ rfl

theorem not_startsWith_verifyPre_of_impl (id r : String) :
    pyStartsWith (implPre id ++ r) (verifyPre id) = false := by
  unfold pyStartsWith verifyPre implPre
  simp only [String.data_append, List.cons_append]
  exact isPrefixOf_false_of_head_ne _ _ _ _ rfl

theorem countMatching_append (pre : String) (a b : List PhaseResult) :
    countMatching pre (a ++ b) = countMatching pre a + countMatching pre b := by
  simp [countMatching, List.filter_append]

theorem mkPhaseResult_name (n : String) (oc : AgentOutcome) :
    (mkPhaseResult n oc).name = n := by
  cases oc with
  | ok text cost turns sessionId =>
    cases h : parse_verdict text <;> simp [mkPhaseResult, h]
  | timeout => rfl
  | exn msg => rfl

/-- The kill-switch and cost-ceiling exits of `run_phase` leave the state
unchanged. -/
theorem run_phase_state_of_preempted (k : Bool) (st : PipelineState) (n : String)
    (oc : AgentOutcome)
    (h : (run_phase k st n oc).2 = .raisedKillSwitch
          ∨ (run_phase k st n oc).2 = .raisedCostCeiling) :
    (run_phase k st n oc).1 = st := by
  revert h
  unfold run_phase run_phase_core
  split_ifs <;> intro h
  · rfl
  · rfl
  · exfalso
    rcases h with h | h <;> revert h <;> dsimp only <;> split <;> simp

/-- Every `run_phase` exit that ran the agent appended exactly the one built
result. -/
theorem run_phase_phases_of_ran (k : Bool) (st : PipelineState) (n : String)
    (oc : AgentOutcome)
    (h : (∃ pr, (run_phase k st n oc).2 = .completed pr)
          ∨ (∃ pr, (run_phase k st n oc).2 = .raisedPhaseError pr)) :
    (run_phase k st n oc).1.phases = st.phases ++ [mkPhaseResult n oc] := by
  revert h
  unfold run_phase run_phase_core
  split_ifs <;> intro h
  · exfalso
    rcases h with ⟨pr, hpr⟩ | ⟨pr, hpr⟩ <;> simp at hpr
  · exfalso
    rcases h with ⟨pr, hpr⟩ | ⟨pr, hpr⟩ <;> simp at hpr
  · rfl

theorem countMatching_singleton (pre : String) (pr : PhaseResult) :
    countMatching pre [pr] = if pyStartsWith pr.name pre then 1 else 0 := by
  by_cases h : pyStartsWith pr.name pre <;> simp [countMatching, h]

/-- Count effect of one `implement-<id>-attempt-<n>` append. -/
theorem counts_after_impl_append (id : String) (attempt : Nat)
    (st₁ st : PipelineState) (oc : AgentOutcome)
    (h : st₁.phases = st.phases ++ [mkPhaseResult (implAttemptStr id attempt) oc]) :
    countMatching (implPre id) st₁.phases = countMatching (implPre id) st.phases + 1
      ∧ countMatching (verifyPre id) st₁.phases = countMatching (verifyPre id) st.phases := by
  rw [h, countMatching_append, countMatching_append, countMatching_singleton,
    countMatching_singleton, mkPhaseResult_name]
  unfold implAttemptStr
  rw [startsWith_implPre, not_startsWith_verifyPre_of_impl]
  simp

/-- Count effect of one `verify-<id>-attempt-<n>` append. -/
theorem counts_after_verify_append (id : String) (attempt : Nat)
    (st₂ st₁ : PipelineState) (oc : AgentOutcome)
    (h : st₂.phases = st₁.phases ++ [mkPhaseResult (verifyAttemptStr id attempt) oc]) :
    countMatching (implPre id) st₂.phases = countMatching (implPre id) st₁.phases
      ∧ countMatching (verifyPre id) st₂.phases
        = countMatching (verifyPre id) st₁.phases + 1 := by
  rw [h, countMatching_append, countMatching_append, countMatching_singleton,
    countMatching_singleton, mkPhaseResult_name]
  unfold verifyAttemptStr
  rw [startsWith_verifyPre, not_startsWith_implPre_of_verify]
  simp

/-- Count invariant of the retry loop: across one call, the implement count
grows by at most `fuel`, and the implement-minus-verify surplus never
shrinks. -/
theorem implLoopGo_counts (maxR : Nat) (id : String) (env : Nat → AttemptEnv) :
    ∀ (fuel attempt : Nat) (st : PipelineState) (tr : ProgressTracker),
      countMatching (implPre id) (implLoopGo maxR id env fuel attempt st tr).1.phases
        ≤ countMatching (implPre id) st.phases + fuel
      ∧ countMatching (verifyPre id) (implLoopGo maxR id env fuel attempt st tr).1.phases
          + countMatching (implPre id) st.phases
        ≤ countMatching (implPre id) (implLoopGo maxR id env fuel attempt st tr).1.phases
          + countMatching (verifyPre id) st.phases := by
  intro fuel
  induction fuel with
  | zero =>
    intro attempt st tr
    constructor <;> simp [implLoopGo]
    omega
  | succ fuel ih =>
    intro attempt st tr
    simp only [implLoopGo]
    split
    · dsimp only
      omega
    · split
      · dsimp only
        omega
      · split
        -- arm 1: implement run_phase raised the kill switch: state unchanged
        next st₁ heq =>
          have h₁ : (run_phase (env attempt).killAtImplement st
              (implAttemptStr id attempt) (env attempt).implOutcome).1 = st₁ :=
            congrArg Prod.fst heq
          have hst : st₁ = st := by
            rw [← h₁]
            exact run_phase_state_of_preempted _ _ _ _ (Or.inl (by rw [heq]))
          subst hst
          dsimp only
          omega
        -- arm 2: implement run_phase raised the cost ceiling: state unchanged
        next st₁ heq =>
          have h₁ : (run_phase (env attempt).killAtImplement st
              (implAttemptStr id attempt) (env attempt).implOutcome).1 = st₁ :=
            congrArg Prod.fst heq
          have hst : st₁ = st := by
            rw [← h₁]
            exact run_phase_state_of_preempted _ _ _ _ (Or.inr (by rw [heq]))
          subst hst
          dsimp only
          omega
        -- arm 3: implement agent error: phase appended, error propagates
        next st₁ pr heq =>
          have h₁ : (run_phase (env attempt).killAtImplement st
              (implAttemptStr id attempt) (env attempt).implOutcome).1 = st₁ :=
            congrArg Prod.fst heq
          have hph : st₁.phases
              = st.phases ++ [mkPhaseResult (implAttemptStr id attempt)
                  (env attempt).implOutcome] := by
            rw [← h₁]
            exact run_phase_phases_of_ran _ _ _ _ (Or.inr ⟨pr, by rw [heq]⟩)
          obtain ⟨hci₁, hcv₁⟩ := counts_after_impl_append id attempt st₁ st _ hph
          dsimp only
          omega
        -- arm 4: implement completed: phase appended, loop continues
        next st₁ pr heq =>
          have h₁ : (run_phase (env attempt).killAtImplement st
              (implAttemptStr id attempt) (env attempt).implOutcome).1 = st₁ :=
            congrArg Prod.fst heq
          have hph : st₁.phases
              = st.phases ++ [mkPhaseResult (implAttemptStr id attempt)
                  (env attempt).implOutcome] := by
            rw [← h₁]
            exact run_phase_phases_of_ran _ _ _ _ (Or.inl ⟨pr, by rw [heq]⟩)
          obtain ⟨hci₁, hcv₁⟩ := counts_after_impl_append id attempt st₁ st _ hph
          split
          · -- stall exit between implement and verify
            dsimp only
            omega
          · -- verify phase runs
            rcases hver : run_phase (env attempt).killAtVerify st₁
                (verifyAttemptStr id attempt) (env attempt).verifyOutcome
              with ⟨st₂, ex₂⟩
            have h₂ : (run_phase (env attempt).killAtVerify st₁
                (verifyAttemptStr id attempt) (env attempt).verifyOutcome).1 = st₂ :=
              congrArg Prod.fst hver
            have hst₂ : countMatching (implPre id) st₂.phases
                  = countMatching (implPre id) st₁.phases
                ∧ countMatching (verifyPre id) st₁.phases
                  ≤ countMatching (verifyPre id) st₂.phases
                ∧ countMatching (verifyPre id) st₂.phases
                  ≤ countMatching (verifyPre id) st₁.phases + 1 := by
              cases ex₂ with
              | completed vpr =>
                have hp := run_phase_phases_of_ran (env attempt).killAtVerify st₁
                  (verifyAttemptStr id attempt) (env attempt).verifyOutcome
                  (Or.inl ⟨vpr, by rw [hver]⟩)
                rw [h₂] at hp
                obtain ⟨ha, hb⟩ := counts_after_verify_append id attempt st₂ st₁ _ hp
                omega
              | raisedPhaseError vpr =>
                have hp := run_phase_phases_of_ran (env attempt).killAtVerify st₁
                  (verifyAttemptStr id attempt) (env attempt).verifyOutcome
                  (Or.inr ⟨vpr, by rw [hver]⟩)
                rw [h₂] at hp
                obtain ⟨ha, hb⟩ := counts_after_verify_append id attempt st₂ st₁ _ hp
                omega
              | raisedKillSwitch =>
                have hp := run_phase_state_of_preempted (env attempt).killAtVerify st₁
                  (verifyAttemptStr id attempt) (env attempt).verifyOutcome
                  (Or.inl (by rw [hver]))
                rw [h₂] at hp
                rw [hp]
                omega
              | raisedCostCeiling =>
                have hp := run_phase_state_of_preempted (env attempt).killAtVerify st₁
                  (verifyAttemptStr id attempt) (env attempt).verifyOutcome
                  (Or.inr (by rw [hver]))
                rw [h₂] at hp
                rw [hp]
                omega
            dsimp only
            split
            · -- pass verdict: return True with state st₂
              dsimp only
              omega
            · split
              · -- final attempt: blocked, return False with state st₂
                dsimp only
                omega
              · -- retry: recurse with the remaining fuel
                have hih := ih (attempt + 1) st₂
                  (ProgressTracker.check tr (implAttemptStr id attempt)
                    (env attempt).gitHead).1
                omega

/-- A tracker one no-progress observation away from its stall tolerance. -/
def c7StallTracker : ProgressTracker :=
  { last_commit := "abc", no_progress_count := 2, max_no_progress := 3 }

/-- One attempt's observations in the stall scenario: the implement agent
succeeds (cost 0) but produces no new commit (`HEAD` stays `abc`). -/
def c7StallEnv : AttemptEnv :=
  { killAtLoopTop := false, killAtImplement := false,
    implOutcome := .ok "VERDICT: PASS" 0 2 "s", gitHead := "abc",
    killAtVerify := false, verifyOutcome := .ok "VERDICT: PASS" 0 1 "s" }

/-- C7 counterexample: on the no-git-progress exit path the loop raises
between an implement phase and its verify phase, so the state holds one
`implement-step-1-attempt-*` phase and zero `verify-step-1-attempt-*`
phases — the claimed equality of the two counts fails on this error exit. -/
theorem c7_stall_counterexample :
    (implement_and_verify 3 "step-1" (fun _ => c7StallEnv) freshState
        c7StallTracker).2.2 = LoopExit.raisedStall
      ∧ countMatching (implPre "step-1")
          (implement_and_verify 3 "step-1" (fun _ => c7StallEnv) freshState
            c7StallTracker).1.phases = 1
      ∧ countMatching (verifyPre "step-1")
          (implement_and_verify 3 "step-1" (fun _ => c7StallEnv) freshState
            c7StallTracker).1.phases = 0
      ∧ (1 : Nat) ≠ 0 := by
  have hcost : ¬ freshState.total_cost > freshState.max_cost := by
    simp only [freshState]
    norm_num
  have hrun : run_phase false freshState (implAttemptStr "step-1" 1)
      (.ok "VERDICT: PASS" 0 2 "s")
      = ({ freshState with
            current_phase := implAttemptStr "step-1" 1,
            total_cost := freshState.total_cost
              + (mkPhaseResult (implAttemptStr "step-1" 1)
                  (.ok "VERDICT: PASS" 0 2 "s")).cost_usd,
            phases := freshState.phases
              ++ [mkPhaseResult (implAttemptStr "step-1" 1)
                  (.ok "VERDICT: PASS" 0 2 "s")] },
          .completed (mkPhaseResult (implAttemptStr "step-1" 1)
            (.ok "VERDICT: PASS" 0 2 "s"))) := by
    unfold run_phase
    rw [if_neg (by decide), if_neg hcost]
    rfl
  have hloop : implement_and_verify 3 "step-1" (fun _ => c7StallEnv) freshState
      c7StallTracker
      = ({ freshState with
            current_phase := implAttemptStr "step-1" 1,
            total_cost := freshState.total_cost
              + (mkPhaseResult (implAttemptStr "step-1" 1)
                  (.ok "VERDICT: PASS" 0 2 "s")).cost_usd,
            phases := freshState.phases
              ++ [mkPhaseResult (implAttemptStr "step-1" 1)
                  (.ok "VERDICT: PASS" 0 2 "s")],
            status := "stalled_no_progress" },
          { last_commit := "abc", no_progress_count := 3, max_no_progress := 3 },
          LoopExit.raisedStall) := by
    unfold implement_and_verify
    show implLoopGo 3 "step-1" (fun _ => c7StallEnv) (2 + 1) 1 freshState
      c7StallTracker = _
    rw [implLoopGo.eq_2]
    simp only [c7StallEnv]
    rw [if_neg (by decide), if_neg hcost, hrun]
    rfl
  rw [hloop]
  refine ⟨rfl, rfl, rfl, by decide⟩

/-- C7 amended: across every exit of the loop — normal returns AND raised
errors — the number of `verify-<id>-attempt-*` phases never exceeds the
number of `implement-<id>-attempt-*` phases, and the implement count is at
most `MAX_VERIFY_RETRIES`; the two counts need not be equal, because the
stall, implement-agent-error and preempted-verify paths leave the loop with
more implement phases than verify phases. -/
theorem c7_attempt_counts_amended (maxR : Nat) (id : String)
    (env : Nat → AttemptEnv) (st : PipelineState) (tr : ProgressTracker)
    (h₁ : countMatching (implPre id) st.phases = 0)
    (h₂ : countMatching (verifyPre id) st.phases = 0) :
    countMatching (verifyPre id)
        (implement_and_verify maxR id env st tr).1.phases
      ≤ countMatching (implPre id)
          (implement_and_verify maxR id env st tr).1.phases
      ∧ countMatching (implPre id)
          (implement_and_verify maxR id env st tr).1.phases ≤ maxR := by
  have h := implLoopGo_counts maxR id env maxR 1 st tr
  unfold implement_and_verify
  omega

/-- Witness for C7 amended on a fresh state with the stall-scenario inputs. -/
theorem c7_attempt_counts_amended_witness :
    countMatching (verifyPre "step-1")
        (implement_and_verify 3 "step-1" (fun _ => c7StallEnv) freshState
          c7StallTracker).1.phases
      ≤ countMatching (implPre "step-1")
          (implement_and_verify 3 "step-1" (fun _ => c7StallEnv) freshState
            c7StallTracker).1.phases
      ∧ countMatching (implPre "step-1")
          (implement_and_verify 3 "step-1" (fun _ => c7StallEnv) freshState
            c7StallTracker).1.phases ≤ 3 :=
  c7_attempt_counts_amended 3 "step-1" (fun _ => c7StallEnv) freshState
    c7StallTracker rfl rfl

end Anvil
